import Mathlib

/-!
Shallow embedding of the markdown_uploader repository (mashi727/markdown_uploader)
in Lean 4, used to check the natural-language specification against the code.

Python strings are modelled as `List Char`; Python dicts (used for front-matter
metadata and for Notion block objects) are modelled as association lists with
insert-overwrite semantics mirroring `d[k] = v`.  Fallible Python code is
modelled with `Except`/`Option`.  Loops whose index does not structurally
decrease are given an explicit fuel argument that is always called with a
provably sufficient value (noted at each definition).
-/

namespace MdUp

/-- Whitespace test mirroring Python's `str.strip` / regex `\s` for the ASCII
whitespace characters (space, tab, newline, carriage return, vertical tab,
form feed). -/
def isPySpace (c : Char) : Bool :=
  c = ' ' || c = '\t' || c = '\n' || c = '\r' || c = '\x0b' || c = '\x0c'

/-- Python `str.lstrip()`: drop leading whitespace. -/
def pyLStrip (s : List Char) : List Char :=
  s.dropWhile isPySpace

/-- Python `str.strip()`: drop leading and trailing whitespace. -/
def pyStrip (s : List Char) : List Char :=
  ((s.dropWhile isPySpace).reverse.dropWhile isPySpace).reverse

/-- Python `str.lower()` (ASCII letters, which is all the source feeds it). -/
def pyLower (s : List Char) : List Char :=
  s.map Char.toLower

/-- Python `str.upper()` (ASCII letters, which is all the source feeds it). -/
def pyUpper (s : List Char) : List Char :=
  s.map Char.toUpper

/-- Worker for `pyTitle`; the flag records whether the previous character was
alphabetic. -/
def pyTitleGo : Bool → List Char → List Char
  | _, [] => []
  | prevAlpha, c :: rest =>
    if c.isAlpha then
      (if prevAlpha then c.toLower else c.toUpper) :: pyTitleGo true rest
    else
      c :: pyTitleGo false rest

/-- Python `str.title()`: uppercase each letter that follows a non-letter,
lowercase the other letters. -/
def pyTitle (s : List Char) : List Char :=
  pyTitleGo false s

/-- Python word-character test for the regex class `\w` (ASCII range, which is
what the callout tags in this repository use). -/
def isWordChar (c : Char) : Bool :=
  c.isAlphanum || c = '_'

/-- Python slice `s[:k]` where `k` may be negative (negative indices count from
the end, clamped at zero). -/
def pySliceTo (s : List Char) (k : Int) : List Char :=
  if k < 0 then s.take (s.length - (-k).toNat) else s.take k.toNat

/-- Python `text.split('\n')`: split on every newline, keeping empty pieces,
always returning at least one piece. -/
def splitOnNl : List Char → List (List Char)
  | [] => [[]]
  | c :: rest =>
    if c = '\n' then [] :: splitOnNl rest
    else
      match splitOnNl rest with
      | l :: ls => (c :: l) :: ls
      | [] => [[c]]

/-- Python `'\n'.join(lines)`. -/
def joinNl : List (List Char) → List Char
  | [] => []
  | [l] => l
  | l :: ls => l ++ '\n' :: joinNl ls

/-- Worker for `pySplitlinesKeep`: accumulates the current line reversed.
Covers the line boundaries `\n`, `\r\n` and `\r` of `str.splitlines`. -/
def splitlinesKeepGo : List Char → List Char → List (List Char)
  | accRev, [] => if accRev.isEmpty then [] else [accRev.reverse]
  | accRev, '\r' :: '\n' :: rest =>
    (accRev.reverse ++ ['\r', '\n']) :: splitlinesKeepGo [] rest
  | accRev, '\r' :: rest => (accRev.reverse ++ ['\r']) :: splitlinesKeepGo [] rest
  | accRev, '\n' :: rest => (accRev.reverse ++ ['\n']) :: splitlinesKeepGo [] rest
  | accRev, c :: rest => splitlinesKeepGo (c :: accRev) rest

/-- Python `str.splitlines(keepends=True)` over the line boundaries `\n`,
`\r\n` and `\r` (the boundaries occurring in this repository's data). -/
def pySplitlinesKeep (s : List Char) : List (List Char) :=
  splitlinesKeepGo [] s

/-- Worker for `pySplitlines` (terminators stripped). -/
def splitlinesGo : List Char → List Char → List (List Char)
  | accRev, [] => if accRev.isEmpty then [] else [accRev.reverse]
  | accRev, '\r' :: '\n' :: rest => accRev.reverse :: splitlinesGo [] rest
  | accRev, '\r' :: rest => accRev.reverse :: splitlinesGo [] rest
  | accRev, '\n' :: rest => accRev.reverse :: splitlinesGo [] rest
  | accRev, c :: rest => splitlinesGo (c :: accRev) rest

/-- Python `str.splitlines()` (terminators stripped), same boundaries as
`pySplitlinesKeep`. -/
def pySplitlines (s : List Char) : List (List Char) :=
  splitlinesGo [] s

/-- Python substring test `needle in hay`. -/
def subOccurs (needle : List Char) : List Char → Bool
  | [] => needle.isEmpty
  | c :: rest => needle.isPrefixOf (c :: rest) || subOccurs needle rest

/-- Association-list model of a Python dict: `d[k] = v` replaces the binding
in place when the key exists and appends otherwise (Python dicts preserve
insertion order). -/
def dictInsert : List (List Char × α) → List Char → α → List (List Char × α)
  | [], k, v => [(k, v)]
  | (k', v') :: rest, k, v =>
    if k' = k then (k', v) :: rest else (k', v') :: dictInsert rest k v

/-- Dict lookup `d.get(k)`. -/
def dictLookup : List (List Char × α) → List Char → Option α
  | [], _ => none
  | (k', v') :: rest, k => if k' = k then some v' else dictLookup rest k

/-- Python `d.update(e)`: insert every binding of `e` into `d`, in order,
overwriting existing keys. -/
def pyUpdate (d e : List (List Char × α)) : List (List Char × α) :=
  e.foldl (fun acc p => dictInsert acc p.1 p.2) d

/-- Configuration fields of `src/src/config.py` class `Config` that the
conversion pipeline reads.  Credential, FTP and ImgBB fields are I/O-only
(loaded from files and environment) and are not part of the conversion logic,
so they are omitted from the model. -/
structure Config where
  max_blocks_per_page : Nat := 100
  max_rich_text_length : Nat := 2000
  video_domains : List (List Char) :=
    ["youtube.com".data, "youtu.be".data, "vimeo.com".data]

/-- Default configuration: `max_blocks_per_page = 100`,
`max_rich_text_length = 2000`, `video_domains = (youtube.com, youtu.be,
vimeo.com)` as in `src/src/config.py` lines 31-36. -/
def defaultConfig : Config := {}

/-- One entry of a Notion `rich_text` list, as built by the converter: either
a plain text span `{'type': 'text', 'text': {'content': ...}}` or an inline
equation span `{'type': 'equation', 'equation': {'expression': ...}}`. -/
inductive RichText where
  | textSpan (content : List Char)
  | equationSpan (expr : List Char)

/-- Kind-specific payload of a Notion block dict (the nested object stored
under the key equal to the block's type).  Only the fields this repository's
converter writes are modelled; a field the block does not carry is `none`.
For an image block `url` stands for the nested `external.url`; for a callout
`icon` stands for the nested `icon.emoji`. -/
structure PayloadOf (β : Type) where
  rich_text : Option (List RichText) := none
  children : Option (List β) := none
  url : Option (List Char) := none
  expression : Option (List Char) := none
  language : Option (List Char) := none
  color : Option (List Char) := none
  icon : Option (List Char) := none

/-- A Notion block dict `{'object': 'block', 'type': t, t: payload}`.
`payload = none` models a malformed dict that carries the `type` key but not
the kind-specific payload key. -/
inductive NBlock where
  | mk (btype : List Char) (payload : Option (PayloadOf NBlock))

/-- Block type tag accessor (`block.get('type')`). -/
def NBlock.btype : NBlock → List Char
  | .mk t _ => t

/-- Kind-specific payload accessor (`block.get(block['type'])`). -/
def NBlock.payload : NBlock → Option (PayloadOf NBlock)
  | .mk _ p => p

/-- A markdown-it token as consumed by the converter: its `type`, `tag`,
`content` and `info` attributes (the only attributes the source reads). -/
structure Token where
  ttype : List Char
  tag : List Char := []
  content : List Char := []
  info : List Char := []

/-- Default token used to model guarded Python list indexing. -/
def defaultToken : Token := { ttype := [] }

/-!
Embedding of `src/src/markdown_parser.py` class `MarkdownParser`.
-/

/-- Character-wise splitting of one over-long line, `src/src/markdown_parser.py`
lines 69-73: `while len(line) > max_length: chunks.append(line[:max_length]);
line = line[max_length:]`.  Returns the full chunks and the remainder that
becomes the new `current_chunk`.  The fuel is the length of the line, which is
sufficient whenever `max ≥ 1` (each step removes `max` characters); the source
loop does not terminate for `max = 0`. -/
def charSplitLoop (max : Nat) : Nat → List Char → List (List Char) × List Char
  | 0, line => ([], line)
  | fuel + 1, line =>
    if line.length > max then
      let r := charSplitLoop max fuel (line.drop max)
      (line.take max :: r.1, r.2)
    else ([], line)

/-- Main loop of `split_long_text`, `src/src/markdown_parser.py` lines 63-75:
fold over the lines of the text (split with keepends), flushing
`current_chunk` when adding the next line would exceed `max_length`, and
splitting a line character-wise when `current_chunk` is empty and the line
alone exceeds `max_length`. -/
def splitLongTextLoop (max : Nat) :
    List (List Char) → List (List Char) → List Char → List (List Char)
  | [], chunks, current => if current.isEmpty then chunks else chunks ++ [current]
  | line :: rest, chunks, current =>
    if current.length + line.length > max then
      if current.isEmpty then
        let r := charSplitLoop max line.length line
        splitLongTextLoop max rest (chunks ++ r.1) r.2
      else
        splitLongTextLoop max rest (chunks ++ [current]) line
    else
      splitLongTextLoop max rest chunks (current ++ line)

/-- `MarkdownParser.split_long_text(text, max_length)`,
`src/src/markdown_parser.py` lines 54-80 (identical in the backup trees). -/
def split_long_text (text : List Char) (max_length : Nat) : List (List Char) :=
  if text.length ≤ max_length then [text]
  else splitLongTextLoop max_length (pySplitlinesKeep text) [] []

/-- `MarkdownParser.is_video_link(url, video_domains)`,
`src/src/markdown_parser.py` lines 106-109:
`bool(url) and any(domain in url for domain in video_domains)`. -/
def is_video_link (url : List Char) (video_domains : List (List Char)) : Bool :=
  (!url.isEmpty) && video_domains.any (fun domain => subOccurs domain url)

/-!
Embedding of the front-matter regex
`re.match(r"^---\s*\n(.+?)\n---\s*\n(.*)$", text, flags=re.S)`
of `parse_frontmatter_and_body` (`src/src/markdown_parser.py` line 21; the
same line appears in `src/backup_v3_20250816_025352/src/markdown_parser.py`
line 44).  `\s*\n` with a greedy `\s*` consumes, inside the maximal
whitespace run, up to the last newline of the run; on failure of the rest of
the pattern the opening `\s*` backtracks to the previous newline of its run.
The lazy `(.+?)` takes the shortest non-empty prefix followed by the
separator `\n---\s*\n`; the final `(.*)` always matches under `re.S`.
-/

/-- Given a whitespace run matched by `\s*` before a required `\n`, return the
part of the run after its last newline (the characters the following group
starts with), or `none` when the run has no newline. -/
def afterLastNl (run : List Char) : Option (List Char) :=
  match run.reverse.span (fun c => c ≠ '\n') with
  | (sufRev, '\n' :: _) => some sufRev.reverse
  | _ => none

/-- All suffixes of `run` that follow one of its newlines, ordered from the
last newline to the first — the order in which a greedy `\s*` before a `\n`
offers them on backtracking. -/
def nlSuffixes : List Char → List (List Char)
  | [] => []
  | '\n' :: rest => nlSuffixes rest ++ [rest]
  | _ :: rest => nlSuffixes rest

/-- Test whether the closing separator `\n---\s*\n` matches at the head of
`s`; when it does, return the remainder that the final `(.*)` captures (the
body). -/
def fmSepHere : List Char → Option (List Char)
  | '\n' :: '-' :: '-' :: '-' :: rest =>
    let run := rest.takeWhile isPySpace
    match afterLastNl run with
    | some tailWs => some (tailWs ++ rest.drop run.length)
    | none => none
  | _ => none

/-- Lazy scan of `(.+?)` followed by the separator: consume one character into
the group, then test for the separator; the first position where the
separator matches wins.  Returns `(group 1, group 2)`. -/
def fmFindSep : List Char → List Char → Option (List Char × List Char)
  | _, [] => none
  | accRev, c :: rest =>
    match fmSepHere rest with
    | some body => some ((c :: accRev).reverse, body)
    | none => fmFindSep (c :: accRev) rest

/-- The whole front-matter regex match: leading `---`, then `\s*\n` (trying
each newline of the whitespace run from last to first), then the lazy
group/separator scan.  Returns `(front-matter text, body)` on a match. -/
def fmMatch (text : List Char) : Option (List Char × List Char) :=
  match text with
  | '-' :: '-' :: '-' :: rest =>
    let run := rest.takeWhile isPySpace
    let after := rest.drop run.length
    (nlSuffixes run).findSome? (fun tailWs => fmFindSep [] (tailWs ++ after))
  | _ => none

/-- Key/value extraction from one front-matter header line,
`src/src/markdown_parser.py` lines 28-30: if the line contains a colon, split
on the first colon and strip both parts; otherwise the line is ignored. -/
def lineKV (line : List Char) : Option (List Char × List Char) :=
  match line.span (fun c => c ≠ ':') with
  | (before, ':' :: after) => some (pyStrip before, pyStrip after)
  | _ => none

/-- Folding the header lines into the front-matter dict,
`src/src/markdown_parser.py` lines 25-30 (`frontmatter[key.strip()] =
val.strip()` for each line with a colon). -/
def parseFmLines (lines : List (List Char)) : List (List Char × List Char) :=
  lines.foldl
    (fun d line =>
      match lineKV line with
      | some kv => dictInsert d kv.1 kv.2
      | none => d)
    []

/-- `MarkdownParser.parse_frontmatter_and_body` of the active tree,
`src/src/markdown_parser.py` lines 13-34, taken on the file's text (the
file-read step, whose failure raises `RuntimeError`, is outside this model):
match the front-matter header, parse its `key: value` lines, and return
`(frontmatter, body)`; with no header the metadata is empty and the body is
the whole text. -/
def parse_frontmatter_and_body (text : List Char) :
    List (List Char × List Char) × List Char :=
  match fmMatch text with
  | some (fmContent, body) => (parseFmLines (pySplitlines fmContent), body)
  | none => ([], text)

/-!
Embedding of `src/backup_v3_20250816_025352/src/markdown_parser.py`
`_extract_execution_metadata` (lines 64-87) and its use by that tree's
`parse_frontmatter_and_body` (lines 36-62).
-/

/-- Match `\d{n}` exactly: `n` digits, returning them and the rest. -/
def takeDigits (n : Nat) (s : List Char) : Option (List Char × List Char) :=
  let pre := s.take n
  if pre.length = n ∧ pre.all Char.isDigit then some (pre, s.drop n) else none

/-- Match a single literal character. -/
def takeLit (c : Char) : List Char → Option (List Char)
  | c' :: rest => if c' = c then some rest else none
  | [] => none

/-- Match the timestamp group `\d{4}-\d{2}-\d{2}\s+\d{2}:\d{2}:\d{2}` at the
head of `s`, returning the matched text.  `\s+` is a maximal non-empty
whitespace run (a digit never being whitespace, greediness needs no
backtracking). -/
def parseTimestamp (s : List Char) : Option (List Char) :=
  match takeDigits 4 s with
  | none => none
  | some (y, s1) =>
    match takeLit '-' s1 with
    | none => none
    | some s2 =>
      match takeDigits 2 s2 with
      | none => none
      | some (mo, s3) =>
        match takeLit '-' s3 with
        | none => none
        | some s4 =>
          match takeDigits 2 s4 with
          | none => none
          | some (d, s5) =>
            let ws := s5.takeWhile isPySpace
            if ws.isEmpty then none
            else
              match takeDigits 2 (s5.drop ws.length) with
              | none => none
              | some (h, s6) =>
                match takeLit ':' s6 with
                | none => none
                | some s7 =>
                  match takeDigits 2 s7 with
                  | none => none
                  | some (mi, s8) =>
                    match takeLit ':' s8 with
                    | none => none
                    | some s9 =>
                      match takeDigits 2 s9 with
                      | none => none
                      | some (sec, _) =>
                        some (y ++ '-' :: mo ++ '-' :: d ++ ws ++
                          h ++ ':' :: mi ++ ':' :: sec)

/-- Attempt of the execution-record pattern
`## 実行記録:\s*(\d{4}-\d{2}-\d{2}\s+\d{2}:\d{2}:\d{2})` at the head of `s`
(the label literal, optional whitespace, then the captured timestamp). -/
def execHere (s : List Char) : Option (List Char) :=
  match "## 実行記録:".data.isPrefixOf? s with
  | none => none
  | some rest =>
    let ws := rest.takeWhile isPySpace
    parseTimestamp (rest.drop ws.length)

/-- Leftmost `re.search` scan for the execution-record pattern,
`src/backup_v3_20250816_025352/src/markdown_parser.py` lines 69-73. -/
def searchExecTime : List Char → Option (List Char)
  | [] => none
  | c :: rest =>
    match execHere (c :: rest) with
    | some ts => some ts
    | none => searchExecTime rest

/-- Attempt of a bold-label pattern `LABEL\s*(.+?)(?:\s|$)` at the head of
`s`: the label literal, optional whitespace, then the shortest non-empty
capture up to the next whitespace or the end — i.e. the maximal non-whitespace
run that follows (the source then strips the capture, a no-op on it). -/
def labelValueHere (label : List Char) (s : List Char) : Option (List Char) :=
  match label.isPrefixOf? s with
  | none => none
  | some rest =>
    let ws := rest.takeWhile isPySpace
    let v := (rest.drop ws.length).takeWhile (fun c => !isPySpace c)
    if v.isEmpty then none else some (pyStrip v)

/-- Leftmost `re.search` scan for a bold-label pattern. -/
def searchLabelValue (label : List Char) : List Char → Option (List Char)
  | [] => none
  | c :: rest =>
    match labelValueHere label (c :: rest) with
    | some v => some v
    | none => searchLabelValue label rest

/-- `MarkdownParser._extract_execution_metadata(text)` of the backup_v3 tree,
lines 64-87: search the body for the execution timestamp, the connection
host label `**接続先:**` and the prompt-file label `**プロンプトファイル:**`,
collecting any matches into a dict under the fixed keys `execution_time`,
`connection_host`, `prompt_file`, in that order. -/
def extract_execution_metadata (text : List Char) :
    List (List Char × List Char) :=
  let d : List (List Char × List Char) := []
  let d := match searchExecTime text with
    | some v => dictInsert d "execution_time".data v
    | none => d
  let d := match searchLabelValue "**接続先:**".data text with
    | some v => dictInsert d "connection_host".data v
    | none => d
  match searchLabelValue "**プロンプトファイル:**".data text with
  | some v => dictInsert d "prompt_file".data v
  | none => d

/-- `MarkdownParser.parse_frontmatter_and_body` of the backup_v3 tree,
`src/backup_v3_20250816_025352/src/markdown_parser.py` lines 36-62: the
active tree's parse followed by `frontmatter.update(execution_metadata)`
(the source guards the update with a truthiness test on the extracted dict;
updating with an empty dict is the same, so the guard is dropped). -/
def parse_frontmatter_and_body_v3 (text : List Char) :
    List (List Char × List Char) × List Char :=
  let r := parse_frontmatter_and_body text
  (pyUpdate r.1 (extract_execution_metadata r.2), r.2)

/-!
Embedding of `src/src/notion_block_converter.py` class `NotionBlockConverter`
(the active tree).
-/

/-- A raised Python exception, as a value. -/
inductive PyError where
  | attributeError (name : List Char)

/-- The `CALLOUT_TYPES` attribute looked up on the parser object at
`src/src/notion_block_converter.py` line 549.  The class `MarkdownParser` of
the active tree (`src/src/markdown_parser.py`) defines no `CALLOUT_TYPES`
attribute — only the backup trees do — so the attribute is absent (`none`)
and the lookup raises `AttributeError`. -/
def currentCalloutTypes : Option (List (List Char × List Char)) := none

/-- Match of `re.match(r'>\s*\[!(\w+)\](?:\s*(.*))?', line)` at the start of a
line (`src/src/notion_block_converter.py` line 532): `>`, optional
whitespace, `[!`, a non-empty word-character run, `]`, then optionally
whitespace and the rest of the line as group 2 (an empty group 2 and an
unmatched optional group are both falsy in the source, so the model keeps
only the stripped-rest text).  Returns `(group 1, group 2)`. -/
def calloutMatch (line : List Char) : Option (List Char × List Char) :=
  match line with
  | '>' :: rest =>
    let rest1 := rest.dropWhile isPySpace
    match rest1 with
    | '[' :: '!' :: rest2 =>
      let w := rest2.takeWhile isWordChar
      if w.isEmpty then none
      else
        match rest2.drop w.length with
        | ']' :: rest3 => some (w, rest3.dropWhile isPySpace)
        | _ => none
    | _ => none
  | _ => none

/-- Predicate of the content-collection loop at
`src/src/notion_block_converter.py` line 541:
`lines[i].startswith('>') or lines[i].strip() == ''`. -/
def calloutContentLine (line : List Char) : Bool :=
  (match line with | '>' :: _ => true | _ => false) || (pyStrip line).isEmpty

/-- Transformation of one collected callout content line
(`src/src/notion_block_converter.py` lines 542-545): a leading `>` is removed
and the remainder left-stripped. -/
def calloutCleanLine (line : List Char) : List Char :=
  match line with
  | '>' :: rest => pyLStrip rest
  | _ => line

/-- Emission of the collected callout as markdown-quote lines,
`src/src/notion_block_converter.py` lines 548-556, given the emoji found in
`CALLOUT_TYPES` (default `📝`). -/
def calloutEmit (emoji title : List Char) (content : List (List Char)) :
    List (List Char) :=
  ("> **".data ++ emoji ++ ' ' :: title ++ "**".data) :: ">".data ::
    content.map (fun c =>
      if (pyStrip c).isEmpty then ">".data else "> ".data ++ c)

/-- Outer loop of `_process_callouts`, `src/src/notion_block_converter.py`
lines 522-563, over the lines of the text.  On a callout start the content
lines are collected, and then the emoji lookup
`self.parser.CALLOUT_TYPES.get(...)` is evaluated: with the attribute absent
it raises `AttributeError`.  Fuel is the number of lines plus one, which is
sufficient because every step consumes at least one line. -/
def processCalloutsLoop (calloutTypes : Option (List (List Char × List Char))) :
    Nat → List (List Char) → Except PyError (List (List Char))
  | _, [] => Except.ok []
  | 0, _ :: _ => Except.ok []
  | fuel + 1, line :: rest =>
    match calloutMatch line with
    | some (ctype0, g2) =>
      let ctype := pyUpper ctype0
      let title := if g2.isEmpty then pyTitle ctype else g2
      let content := (rest.takeWhile calloutContentLine).map calloutCleanLine
      let rest' := rest.dropWhile calloutContentLine
      match calloutTypes with
      | none => Except.error (PyError.attributeError "CALLOUT_TYPES".data)
      | some m =>
        let emoji := (dictLookup m ctype).getD "📝".data
        match processCalloutsLoop calloutTypes fuel rest' with
        | Except.ok out => Except.ok (calloutEmit emoji title content ++ out)
        | Except.error e => Except.error e
    | none =>
      match processCalloutsLoop calloutTypes fuel rest with
      | Except.ok out => Except.ok (line :: out)
      | Except.error e => Except.error e

/-- `NotionBlockConverter._process_callouts(md_text)`,
`src/src/notion_block_converter.py` lines 522-563, parameterised by the
`CALLOUT_TYPES` attribute the emoji lookup reads (absent in the active
tree, see `currentCalloutTypes`). -/
def process_callouts (calloutTypes : Option (List (List Char × List Char)))
    (md_text : List Char) : Except PyError (List Char) :=
  let lines := splitOnNl md_text
  match processCalloutsLoop calloutTypes (lines.length + 1) lines with
  | Except.ok out => Except.ok (joinNl out)
  | Except.error e => Except.error e

/-- The fixed language-name mapping of `_process_code_block`,
`src/src/notion_block_converter.py` lines 437-451. -/
def languageMapping : List (List Char × List Char) :=
  [("text".data, "plain text".data), ("txt".data, "plain text".data),
   ("plaintext".data, "plain text".data), ("sh".data, "shell".data),
   ("bash".data, "shell".data), ("zsh".data, "shell".data),
   ("js".data, "javascript".data), ("ts".data, "typescript".data),
   ("py".data, "python".data), ("rb".data, "ruby".data),
   ("yml".data, "yaml".data), ("md".data, "markdown".data),
   ([], "plain text".data)]

/-- Block built for one code fence by `_process_code_block`,
`src/src/notion_block_converter.py` lines 430-477: normalise the language
tag, and emit an equation block when the normalised tag is `math`, `latex`
or `tex`, a code block otherwise. -/
def processCodeBlockBlock (token : Token) : NBlock :=
  let language := if token.info.isEmpty then "plain text".data else token.info
  let normalized := pyStrip (pyLower language)
  let language :=
    match dictLookup languageMapping normalized with
    | some mapped => mapped
    | none => if normalized.isEmpty then "plain text".data else language
  if normalized = "math".data ∨ normalized = "latex".data ∨
      normalized = "tex".data then
    NBlock.mk "equation".data (some { expression := some token.content })
  else
    NBlock.mk "code".data
      (some { language := some language,
              rich_text := some [RichText.textSpan token.content] })

/-- `NotionBlockConverter._process_code_block(tokens, i, blocks)`: appends
exactly one block for the fence token and returns `i + 1`. -/
def process_code_block (tokens : List Token) (i : Nat) (blocks : List NBlock) :
    List NBlock × Nat :=
  (blocks ++ [processCodeBlockBlock (tokens.getD i defaultToken)], i + 1)

/-- List-item block built at `src/src/notion_block_converter.py` lines
632-636. -/
def listItemBlock (listType txt : List Char) : NBlock :=
  NBlock.mk listType (some { rich_text := some [RichText.textSpan txt] })

/-- Inner while loop of `_process_list`, `src/src/notion_block_converter.py`
lines 627-641: walk tokens until a list-close token, emitting one list-item
block (with the raw inline content) per `list_item_open` and skipping five
tokens per item.  Fuel is the token count plus one, sufficient because the
index strictly increases while the loop runs.  Returns the blocks and the
index after the loop's final `i + 1`. -/
def processListLoop (tokens : List Token) (listType : List Char) :
    Nat → Nat → List NBlock → List NBlock × Nat
  | 0, i, blocks => (blocks, i + 1)
  | fuel + 1, i, blocks =>
    if i < tokens.length then
      let t := (tokens.getD i defaultToken).ttype
      if t = "bullet_list_close".data ∨ t = "ordered_list_close".data then
        (blocks, i + 1)
      else if t = "list_item_open".data then
        let blocks' :=
          if i + 2 < tokens.length then
            blocks ++
              [listItemBlock listType ((tokens.getD (i + 2) defaultToken).content)]
          else blocks
        processListLoop tokens listType fuel (i + 5) blocks'
      else
        processListLoop tokens listType fuel (i + 1) blocks
    else (blocks, i + 1)

/-- `NotionBlockConverter._process_list(tokens, i, blocks)` of the active
tree, `src/src/notion_block_converter.py` lines 622-641: choose the item
type from the opening token and run the item loop.  The item text is emitted
verbatim; this version of the converter applies no markdown-link handling to
list items. -/
def process_list (tokens : List Token) (i : Nat) (blocks : List NBlock) :
    List NBlock × Nat :=
  let listType :=
    if (tokens.getD i defaultToken).ttype = "ordered_list_open".data then
      "numbered_list_item".data
    else "bulleted_list_item".data
  processListLoop tokens listType (tokens.length + 1) (i + 1) blocks

/-- Match of the image pattern `!\[([^\]]*)\]\(([^)]+)\)` at the head of `s`:
`![`, a maximal run without `]`, `]`, `(`, a maximal non-empty run without
`)`, `)`.  Returns `(alt text, path)`. -/
def imgMatchHere (s : List Char) : Option (List Char × List Char) :=
  match s with
  | '!' :: '[' :: rest =>
    let alt := rest.takeWhile (fun c => c ≠ ']')
    match rest.drop alt.length with
    | ']' :: '(' :: rest2 =>
      let path := rest2.takeWhile (fun c => c ≠ ')')
      if path.isEmpty then none
      else
        match rest2.drop path.length with
        | ')' :: _ => some (alt, path)
        | _ => none
    | _ => none
  | _ => none

/-- `re.search` of the image pattern: leftmost match wins. -/
def imgSearch : List Char → Option (List Char × List Char)
  | [] => none
  | c :: rest =>
    match imgMatchHere (c :: rest) with
    | some m => some m
    | none => imgSearch rest

/-- Scanner for the inline-math pattern `\$([^$\n]+)\$` building the mixed
`rich_text` list of `_process_inline_math`, `src/src/notion_block_converter.py`
lines 479-520: pending plain text is flushed as a text span before each
equation span; trailing text is flushed at the end.  `pendingRev` is the
pending text reversed.  Fuel is the input length plus one; every step
consumes at least one character. -/
def scanInlineMath : Nat → List Char → List Char → List RichText
  | 0, pendingRev, s =>
    if (pendingRev.reverse ++ s).isEmpty then []
    else [RichText.textSpan (pendingRev.reverse ++ s)]
  | fuel + 1, pendingRev, s =>
    match s with
    | [] => if pendingRev.isEmpty then [] else [RichText.textSpan pendingRev.reverse]
    | '$' :: rest =>
      let run := rest.takeWhile (fun c => c ≠ '$' ∧ c ≠ '\n')
      match run, rest.drop run.length with
      | _ :: _, '$' :: rest3 =>
        (if pendingRev.isEmpty then [] else [RichText.textSpan pendingRev.reverse]) ++
          RichText.equationSpan run :: scanInlineMath fuel [] rest3
      | _, _ => scanInlineMath fuel ('$' :: pendingRev) rest
    | c :: rest => scanInlineMath fuel (c :: pendingRev) rest

/-- Whether a scanned `rich_text` list contains an equation span (i.e. the
inline-math `finditer` found at least one match). -/
def hasEquationSpan (l : List RichText) : Bool :=
  l.any (fun rt => match rt with
    | RichText.equationSpan _ => true
    | RichText.textSpan _ => false)

/-- Image block `{'image': {'external': {'url': u}}}` built at
`src/src/notion_block_converter.py` lines 663-667. -/
def imageBlock (u : List Char) : NBlock :=
  NBlock.mk "image".data (some { url := some u })

/-- Plain paragraph block. -/
def paragraphBlock (rts : List RichText) : NBlock :=
  NBlock.mk "paragraph".data (some { rich_text := some rts })

/-- `NotionBlockConverter._process_paragraph(tokens, i, blocks, md_dir)` of
the active tree, `src/src/notion_block_converter.py` lines 643-682.  The
external image resolver `self.image_uploader.get_image_url` is the
collaborator `uploader`; `calls` records, in order, each path it is invoked
on (the source calls it exactly where an element is appended to `calls`).
Note the function reads neither the converter's `processed_images` set nor
any other cross-call state.  Returns `(blocks, calls, next index)`. -/
def process_paragraph (uploader : List Char → List Char) (md_dir : List Char)
    (tokens : List Token) (i : Nat) (blocks : List NBlock)
    (calls : List (List Char)) :
    List NBlock × List (List Char) × Nat :=
  if i + 1 < tokens.length then
    let txt := pyStrip (tokens.getD (i + 1) defaultToken).content
    if txt.isEmpty then (blocks, calls, i + 2)
    else
      match imgSearch txt with
      | some altPath =>
        let img_path := altPath.2
        if "http://".data.isPrefixOf img_path ||
            "https://".data.isPrefixOf img_path then
          (blocks ++ [imageBlock img_path], calls, i + 2)
        else
          let full_img_path := md_dir ++ '/' :: img_path
          let img_url := uploader full_img_path
          (blocks ++ [imageBlock img_url], calls ++ [full_img_path], i + 2)
      | none =>
        let rts := scanInlineMath (txt.length + 1) [] txt
        if hasEquationSpan rts then
          (blocks ++ [paragraphBlock rts], calls, i + 2)
        else
          (blocks ++ [paragraphBlock [RichText.textSpan txt]], calls, i + 2)
  else (blocks, calls, i + 2)

/-- Worker for `_truncate_rich_text`, `src/src/notion_block_converter.py`
lines 759-783: walk the `rich_text` list keeping a running total of the text
lengths; a text span that no longer fits is cut to the remaining budget
minus three characters (a Python slice, so a negative bound counts from the
end), given a trailing `...`, and the walk stops there.  Non-text spans pass
through without affecting the total. -/
def truncateRichTextGo (maxLen : Nat) : Nat → List RichText → List RichText
  | _, [] => []
  | total, rt :: rest =>
    match rt with
    | RichText.textSpan content =>
      let remaining : Int := (maxLen : Int) - (total : Int)
      if (content.length : Int) ≤ remaining then
        RichText.textSpan content :: truncateRichTextGo maxLen (total + content.length) rest
      else
        [RichText.textSpan (pySliceTo content (remaining - 3) ++ "...".data)]
    | RichText.equationSpan e =>
      RichText.equationSpan e :: truncateRichTextGo maxLen total rest

/-- `NotionBlockConverter._truncate_rich_text` applied to one `rich_text`
list. -/
def truncate_rich_text (maxLen : Nat) (rts : List RichText) : List RichText :=
  truncateRichTextGo maxLen 0 rts

/-- The block kinds whose payload `_validate_rich_text_length`
(`src/src/notion_block_converter.py` lines 738-757) dispatches to
`_truncate_rich_text`.  Code, equation, image, divider, bookmark and embed
blocks are not in the chain and pass through untouched. -/
def textBlockKinds : List (List Char) :=
  ["paragraph".data, "heading_1".data, "heading_2".data, "heading_3".data,
   "quote".data, "bulleted_list_item".data, "numbered_list_item".data,
   "toggle".data, "callout".data]

/-- `NotionBlockConverter._validate_rich_text_length(block)`: truncate the
payload's `rich_text` (when present) for the dispatched block kinds.  In the
block dicts this converter builds, the payload key equals the block's type,
so the source's `'paragraph' in block` membership chain is the test
`btype ∈ textBlockKinds` on a payload-carrying block. -/
def validate_rich_text_length (cfg : Config) (b : NBlock) : NBlock :=
  match b with
  | NBlock.mk t (some p) =>
    if t ∈ textBlockKinds then
      NBlock.mk t (some { p with
        rich_text := p.rich_text.map (truncate_rich_text cfg.max_rich_text_length) })
    else b
  | NBlock.mk _ none => b

/-- Per-block body of the `_validate_blocks` loop,
`src/src/notion_block_converter.py` lines 716-734: truncate the block's own
rich text, then — for a toggle block carrying children — keep only the first
50 children, truncating each kept child's rich text. -/
def validateBlockStep (cfg : Config) (b : NBlock) : NBlock :=
  let b1 := validate_rich_text_length cfg b
  match b1 with
  | NBlock.mk t (some p) =>
    if t = "toggle".data then
      match p.children with
      | some cs =>
        NBlock.mk t (some { p with
          children := some ((cs.take 50).map (validate_rich_text_length cfg)) })
      | none => b1
    else b1
  | NBlock.mk _ none => b1

/-- Loop of `_validate_blocks`, `src/src/notion_block_converter.py` lines
710-734: `count` is the number of blocks already validated; the loop breaks
as soon as it reaches `max_blocks_per_page`.  Every processed block is
appended — the loop contains no payload-presence check. -/
def validateBlocksLoop (cfg : Config) : List NBlock → Nat → List NBlock
  | [], _ => []
  | b :: rest, count =>
    if cfg.max_blocks_per_page ≤ count then []
    else validateBlockStep cfg b :: validateBlocksLoop cfg rest (count + 1)

/-- `NotionBlockConverter._validate_blocks(blocks)` of the active tree,
`src/src/notion_block_converter.py` lines 706-736. -/
def validate_blocks (cfg : Config) (blocks : List NBlock) : List NBlock :=
  validateBlocksLoop cfg blocks 0

/-!
Embedding of `NotionUploader._create_multiple_pages`
(`src/backup_v2_20250816_024527/src/uploader.py` lines 220-252).  The
document-store collaborator `NotionClientWrapper.create_page`
(`src/src/notion_client.py` lines 26-50) is external network I/O; it is
modelled as an oracle from a page-creation request to an optional page id
(`None` models a failed creation).
-/

/-- One `create_page(title, abstract, blocks, parent_id)` request.  The block
list is kept abstract: the assembler never inspects individual blocks. -/
structure PageReq (α : Type) where
  title : List Char
  abstract : List Char
  children : List α
  parent_id : Option (List Char)

/-- Title of continuation page `n`: the f-string `f"{title} (続き {chunk_num})"`
of `src/backup_v2_20250816_024527/src/uploader.py` line 244
(`続き` is Japanese for "continued"). -/
def subTitle (title : List Char) (n : Nat) : List Char :=
  title ++ " (続き ".data ++ (Nat.repr n).data ++ ")".data

/-- Continuation-page loop of `_create_multiple_pages` (lines 240-252): while
blocks remain, submit the next chunk of `cap` blocks as a page titled
`subTitle` with empty abstract and the main page as parent; on a failed
creation the loop breaks, keeping the pages already created.  Returns the
successfully submitted `(request, page id)` pairs in order.  Fuel is the
remaining block count plus one, sufficient whenever `cap ≥ 1`. -/
def createSubPagesLoop (oracle : PageReq α → Option (List Char)) (cap : Nat)
    (title main_page_id : List Char) :
    Nat → List α → Nat → List (PageReq α × List Char)
  | 0, _, _ => []
  | fuel + 1, remaining, chunk_num =>
    if remaining.isEmpty then []
    else
      let req : PageReq α :=
        { title := subTitle title chunk_num, abstract := [],
          children := remaining.take cap, parent_id := some main_page_id }
      match oracle req with
      | some pid =>
        (req, pid) ::
          createSubPagesLoop oracle cap title main_page_id fuel
            (remaining.drop cap) (chunk_num + 1)
      | none => []

/-- `NotionUploader._create_multiple_pages(title, abstract, blocks, ...)`,
`src/backup_v2_20250816_024527/src/uploader.py` lines 220-252: submit the
first `cap` blocks as the main page with the given title and abstract; a
failed main-page creation raises `RuntimeError` (the error case) and no
continuation page is attempted; otherwise the remaining blocks are submitted
as continuation pages.  The value is the ordered list of successfully
created `(request, page id)` pairs. -/
def create_multiple_pages (oracle : PageReq α → Option (List Char)) (cap : Nat)
    (title abstract : List Char) (blocks : List α) :
    Except (List Char) (List (PageReq α × List Char)) :=
  let mainReq : PageReq α :=
    { title := title, abstract := abstract, children := blocks.take cap,
      parent_id := none }
  match oracle mainReq with
  | none => Except.error "メインページの作成に失敗しました".data
  | some main_page_id =>
    Except.ok ((mainReq, main_page_id) ::
      createSubPagesLoop oracle cap title main_page_id
        ((blocks.drop cap).length + 1) (blocks.drop cap) 1)

/-- Expression field of a block's payload, `none` when absent. -/
def NBlock.expressionOf : NBlock → Option (List Char)
  | NBlock.mk _ (some p) => p.expression
  | NBlock.mk _ none => none

/-- Children field of a block's payload, `none` when absent. -/
def NBlock.childrenOf : NBlock → Option (List NBlock)
  | NBlock.mk _ (some p) => p.children
  | NBlock.mk _ none => none

/-- Bool check used to state the container-child cap: a toggle block carries
at most 50 children (vacuously true for other blocks and for a toggle
without a children field). -/
def toggleChildrenCapped (b : NBlock) : Bool :=
  match b with
  | NBlock.mk t (some p) =>
    if t = "toggle".data then
      match p.children with
      | some cs => decide (cs.length ≤ 50)
      | none => true
    else true
  | NBlock.mk _ none => true

/-- The markdown-it token stream for a one-item bulleted list whose single
item's raw inline content is `txt` (e.g. `- [Example](https://youtu.be/abc)`
gives `txt = "[Example](https://youtu.be/abc)"`). -/
def linkListTokens (txt : List Char) : List Token :=
  [{ ttype := "bullet_list_open".data, tag := "ul".data },
   { ttype := "list_item_open".data, tag := "li".data },
   { ttype := "paragraph_open".data, tag := "p".data },
   { ttype := "inline".data, content := txt },
   { ttype := "paragraph_close".data, tag := "p".data },
   { ttype := "list_item_close".data, tag := "li".data },
   { ttype := "bullet_list_close".data, tag := "ul".data }]

/-- The fence token for a code fence tagged `math` with body `content`. -/
def mathFenceToken (content : List Char) : Token :=
  { ttype := "fence".data, tag := "code".data, content := content,
    info := "math".data }

/-- The token stream for a body consisting of two paragraphs, each being the
same local image reference `![a](img.png)`. -/
def twoImageTokens : List Token :=
  [{ ttype := "paragraph_open".data, tag := "p".data },
   { ttype := "inline".data, content := "![a](img.png)".data },
   { ttype := "paragraph_close".data, tag := "p".data },
   { ttype := "paragraph_open".data, tag := "p".data },
   { ttype := "inline".data, content := "![a](img.png)".data },
   { ttype := "paragraph_close".data, tag := "p".data }]

/-- A resolver oracle for tests: every path resolves to a fixed hosted URL. -/
def constUploader : List Char → List Char :=
  fun _ => "http://host/hosted.png".data

/-- A document-store oracle for tests: every page creation succeeds with a
fixed page id. -/
def constPageOracle : PageReq Nat → Option (List Char) :=
  fun _ => some "main-page-id".data

end MdUp

namespace MdUp

/-! Supporting lemmas. -/

/-- `subOccurs` decides list-infix containment (Python's `in` on strings). -/
theorem subOccurs_spec (needle hay : List Char) :
    subOccurs needle hay = true ↔ needle <:+: hay := by
  induction hay with
  | nil =>
    simp only [subOccurs, List.isEmpty_iff, List.infix_nil]
  | cons c rest ih =>
    simp only [subOccurs, Bool.or_eq_true, List.isPrefixOf_iff_prefix, ih,
      List.infix_cons_iff]

/-- C1: the claim says `convert_markdown_to_blocks` never raises on malformed
markup and that an Obsidian callout line such as `> [!NOTE]` degrades to
quote text.  In the active tree the standard-conversion path runs
`_process_callouts`, whose emoji lookup `self.parser.CALLOUT_TYPES.get(...)`
(line 549) reads an attribute the active `MarkdownParser` does not define:
on the body `> [!NOTE]` the conversion raises `AttributeError` instead of
degrading. -/
theorem callout_crash_on_note :
    process_callouts currentCalloutTypes "> [!NOTE]".data =
      Except.error (PyError.attributeError "CALLOUT_TYPES".data) := rfl

/-- C5 (counterexample): on the token stream of the list item
`- [Example](https://youtu.be/abc)` the active `_process_list` emits a single
`bulleted_list_item` block holding the raw item text — not the
paragraph-plus-embed pair the claim describes. -/
theorem process_list_link_counterexample :
    process_list (linkListTokens "[Example](https://youtu.be/abc)".data) 0 [] =
      ([listItemBlock "bulleted_list_item".data
          "[Example](https://youtu.be/abc)".data], 7) ∧
    (process_list (linkListTokens "[Example](https://youtu.be/abc)".data) 0
        []).1.map NBlock.btype ≠ ["paragraph".data, "embed".data] := by
  refine ⟨rfl, ?_⟩
  decide

/-- C5 (amended): for every raw item text, the active `_process_list` turns a
one-item bulleted list into exactly one `bulleted_list_item` block carrying
the item text verbatim; markdown links inside the item receive no special
treatment (no paragraph, bookmark or embed block is emitted). -/
theorem process_list_item_verbatim (txt : List Char) :
    process_list (linkListTokens txt) 0 [] =
      ([listItemBlock "bulleted_list_item".data txt], 7) := rfl

/-- C8 (amended): a code fence tagged `math` always becomes exactly one
equation block — never a code block — whose expression equals the raw fence
content (which, unlike the claim says, is not trimmed). -/
theorem math_fence_equation_raw (content : List Char) :
    processCodeBlockBlock (mathFenceToken content) =
      NBlock.mk "equation".data (some { expression := some content }) ∧
    ∀ (tokens : List Token) (i : Nat) (blocks : List NBlock),
      process_code_block tokens i blocks =
        (blocks ++ [processCodeBlockBlock (tokens.getD i defaultToken)], i + 1) :=
  ⟨rfl, fun _ _ _ => rfl⟩

/-- C8 (counterexample): for the fence body `"x^2\n"` the emitted equation's
expression is the raw content `"x^2\n"`, which differs from the trimmed
content `"x^2"` the claim requires. -/
theorem math_fence_trim_counterexample :
    (processCodeBlockBlock (mathFenceToken "x^2\n".data)).expressionOf =
      some "x^2\n".data ∧
    pyStrip "x^2\n".data = "x^2".data ∧
    "x^2\n".data ≠ "x^2".data := by
  refine ⟨rfl, rfl, ?_⟩
  decide

/-- C10: `is_video_link(url, domains)` returns true exactly when the url is
non-empty and some configured domain occurs as a substring anywhere in the
url; in particular `https://example.com/?ref=youtube.com`, which merely
mentions a video domain in its query string, is classified as a video link
under the default domain tuple. -/
theorem is_video_link_iff :
    (∀ (url : List Char) (domains : List (List Char)),
      is_video_link url domains = true ↔
        url ≠ [] ∧ ∃ d ∈ domains, d <:+: url) ∧
    is_video_link "https://example.com/?ref=youtube.com".data
      defaultConfig.video_domains = true := by
  constructor
  · intro url domains
    have hne : ((!url.isEmpty) = true) ↔ url ≠ [] := by cases url <;> simp
    simp only [is_video_link, Bool.and_eq_true, List.any_eq_true, hne]
    constructor
    · rintro ⟨h1, d, hd, hocc⟩
      exact ⟨h1, d, hd, (subOccurs_spec d url).mp hocc⟩
    · rintro ⟨h1, d, hd, hinf⟩
      exact ⟨h1, d, hd, (subOccurs_spec d url).mpr hinf⟩
  · decide

/-- Lookup after a dict insert: the inserted key reads back the new value,
every other key is unaffected. -/
theorem dictLookup_dictInsert (d : List (List Char × α)) (k : List Char)
    (v : α) (k' : List Char) :
    dictLookup (dictInsert d k v) k' =
      if k = k' then some v else dictLookup d k' := by
  induction d with
  | nil => simp [dictInsert, dictLookup]
  | cons p rest ih =>
    obtain ⟨k0, v0⟩ := p
    by_cases h0 : k0 = k
    · subst h0
      simp only [dictInsert, if_pos rfl, dictLookup]
      by_cases h1 : k0 = k' <;> simp [h1]
    · simp only [dictInsert, if_neg h0, dictLookup, ih]
      by_cases h1 : k0 = k'
      · subst h1
        have h2 : k ≠ k0 := fun h => h0 h.symm
        simp [h2]
      · simp [h1]

/-- Specification-side description of the front-matter header parse, written
from the claim's words: the value returned for a key is the split-and-trimmed
value of the last header line carrying that key, lines without a colon being
ignored (later lines are consulted first). -/
def lastValueSpec (k : List Char) : List (List Char) → Option (List Char)
  | [] => none
  | line :: rest =>
    match lastValueSpec k rest with
    | some v => some v
    | none =>
      match lineKV line with
      | some kv => if kv.1 = k then some kv.2 else none
      | none => none

/-- Folding header lines into the dict agrees with `lastValueSpec`, for any
starting dict. -/
theorem parseFmLinesFold_lookup (lines : List (List Char))
    (d : List (List Char × List Char)) (k : List Char) :
    dictLookup (lines.foldl
      (fun d line =>
        match lineKV line with
        | some kv => dictInsert d kv.1 kv.2
        | none => d) d) k =
      match lastValueSpec k lines with
      | some v => some v
      | none => dictLookup d k := by
  induction lines generalizing d with
  | nil => simp [lastValueSpec]
  | cons line rest ih =>
    simp only [List.foldl_cons, ih, lastValueSpec]
    cases lastValueSpec k rest with
    | some v => rfl
    | none =>
      cases hkv : lineKV line with
      | none => rfl
      | some kv =>
        simp only [dictLookup_dictInsert]
        by_cases h : kv.1 = k <;> simp [h]

/-- C9: in `parse_frontmatter_and_body` each header line is split on its
first colon with key and value trimmed, a line without a colon is silently
ignored, and a repeated key keeps the value of its last occurrence.  The
first conjunct compares the dict fold with the specification-side
`lastValueSpec`; the concrete conjuncts exercise first-colon splitting with
trimming, and a full parse with a duplicate key and a colonless line. -/
theorem frontmatter_lines_semantics :
    (∀ (lines : List (List Char)) (k : List Char),
      dictLookup (parseFmLines lines) k = lastValueSpec k lines) ∧
    parseFmLines [" key : val : x ".data] = [("key".data, "val : x".data)] ∧
    parse_frontmatter_and_body "---\nfoo: 1\nbar\nfoo: 2\n---\nrest".data =
      ([("foo".data, "2".data)], "rest".data) := by
  refine ⟨?_, rfl, rfl⟩
  intro lines k
  have h := parseFmLinesFold_lookup lines [] k
  rw [parseFmLines, h]
  cases lastValueSpec k lines <;> simp [dictLookup]

/-- Concatenating the keepends-split lines reconstructs the text. -/
theorem splitlinesKeepGo_join (accRev s : List Char) :
    (splitlinesKeepGo accRev s).flatten = accRev.reverse ++ s := by
  induction accRev, s using splitlinesKeepGo.induct <;>
    simp_all [splitlinesKeepGo, List.isEmpty_iff]

/-- `pySplitlinesKeep` is a partition of the text. -/
theorem pySplitlinesKeep_join (s : List Char) :
    (pySplitlinesKeep s).flatten = s := by
  simpa using splitlinesKeepGo_join [] s

/-- The character-wise splitter loses nothing: the chunks followed by the
remainder reconstruct the line, for any fuel. -/
theorem charSplitLoop_join (max : Nat) (fuel : Nat) (line : List Char) :
    (charSplitLoop max fuel line).1.flatten ++ (charSplitLoop max fuel line).2 =
      line := by
  induction fuel generalizing line with
  | zero => simp [charSplitLoop]
  | succ fuel ih =>
    by_cases h : line.length > max
    · simp only [charSplitLoop, if_pos h, List.flatten_cons, List.append_assoc,
        ih]
      exact List.take_append_drop max line
    · simp [charSplitLoop, if_neg h]

/-- The main `split_long_text` loop loses nothing: the chunks it returns
concatenate to the chunks so far, the current chunk, and the remaining
lines. -/
theorem splitLongTextLoop_join (max : Nat) (lines : List (List Char))
    (chunks : List (List Char)) (current : List Char) :
    (splitLongTextLoop max lines chunks current).flatten =
      chunks.flatten ++ current ++ lines.flatten := by
  induction lines generalizing chunks current with
  | nil =>
    by_cases h : current.isEmpty
    · simp [splitLongTextLoop, h, List.isEmpty_iff.mp h]
    · simp [splitLongTextLoop, h]
  | cons line rest ih =>
    by_cases h1 : current.length + line.length > max
    · by_cases h2 : current.isEmpty
      · have hcur : current = [] := List.isEmpty_iff.mp h2
        subst hcur
        simp only [splitLongTextLoop, if_pos h1, List.isEmpty_nil, if_true]
        rw [ih]
        have hc := charSplitLoop_join max line.length line
        generalize charSplitLoop max line.length line = r at hc ⊢
        rw [← hc]
        simp [List.flatten_append, List.append_assoc]
      · simp only [splitLongTextLoop, if_pos h1, h2]
        simp only [Bool.false_eq_true, if_false]
        rw [ih]
        simp [List.flatten_append, List.append_assoc]
    · simp only [splitLongTextLoop, if_neg h1]
      rw [ih]
      simp [List.append_assoc]

/-- Pieces stay within the bound when every line fits and the invariants
hold: the current chunk and every chunk so far are within the bound. -/
theorem splitLongTextLoop_bound (max : Nat) (lines : List (List Char))
    (chunks : List (List Char)) (current : List Char)
    (hlines : ∀ l ∈ lines, l.length ≤ max)
    (hcur : current.length ≤ max)
    (hchunks : ∀ c ∈ chunks, c.length ≤ max) :
    ∀ p ∈ splitLongTextLoop max lines chunks current, p.length ≤ max := by
  induction lines generalizing chunks current with
  | nil =>
    intro p hp
    by_cases h : current.isEmpty
    · simp only [splitLongTextLoop, h, if_pos rfl] at hp
      exact hchunks p hp
    · simp only [splitLongTextLoop, h, Bool.false_eq_true, if_false] at hp
      rcases List.mem_append.mp hp with h1 | h1
      · exact hchunks p h1
      · rcases List.mem_singleton.mp h1 with rfl
        exact hcur
  | cons line rest ih =>
    intro p hp
    have hline : line.length ≤ max := hlines line (List.mem_cons_self _ _)
    have hrest : ∀ l ∈ rest, l.length ≤ max :=
      fun l hl => hlines l (List.mem_cons_of_mem _ hl)
    by_cases h1 : current.length + line.length > max
    · by_cases h2 : current.isEmpty
      · have hcur0 : current = [] := List.isEmpty_iff.mp h2
        rw [hcur0] at h1
        simp only [List.length_nil, Nat.zero_add] at h1
        omega
      · simp only [splitLongTextLoop, if_pos h1, h2, Bool.false_eq_true,
          if_false] at hp
        refine ih _ _ hrest hline ?_ p hp
        intro c hc
        rcases List.mem_append.mp hc with h3 | h3
        · exact hchunks c h3
        · rcases List.mem_singleton.mp h3 with rfl
          exact hcur
    · simp only [splitLongTextLoop, if_neg h1] at hp
      refine ih _ _ hrest ?_ hchunks p hp
      simp only [List.length_append]
      omega

/-- C2 (amended): for every text and every positive maximum length,
`split_long_text` returns pieces whose concatenation equals the text exactly
(no content lost or added); the per-piece length bound, however, only holds
when every keepends-line of the text is itself within the bound — an
over-long line that follows accumulated content is emitted whole (see the
counterexample). -/
theorem split_long_text_roundtrip (t : List Char) (n : Nat) (h : 0 < n) :
    (split_long_text t n).flatten = t ∧
    ((∀ l ∈ pySplitlinesKeep t, l.length ≤ n) →
      ∀ p ∈ split_long_text t n, p.length ≤ n) := by
  constructor
  · by_cases hle : t.length ≤ n
    · simp [split_long_text, hle]
    · simp only [split_long_text, hle, if_neg, if_false]
      rw [splitLongTextLoop_join]
      simp [pySplitlinesKeep_join]
  · intro hlines p hp
    by_cases hle : t.length ≤ n
    · simp only [split_long_text, hle, if_pos, if_true] at hp
      rcases List.mem_singleton.mp hp with rfl
      exact hle
    · simp only [split_long_text, hle, if_neg, if_false] at hp
      exact splitLongTextLoop_bound n (pySplitlinesKeep t) [] [] hlines
        (by simp) (by simp) p hp

/-- C2 (witness): the round-trip and, with every line short enough, the
length bound, at the concrete text `"hi\nyo"` and bound 5. -/
theorem split_long_text_roundtrip_witness :
    0 < 5 ∧ (split_long_text "hi\nyo".data 5).flatten = "hi\nyo".data ∧
    ∀ p ∈ split_long_text "hi\nyo".data 5, p.length ≤ 5 :=
  ⟨by decide, (split_long_text_roundtrip "hi\nyo".data 5 (by decide)).1,
   (split_long_text_roundtrip "hi\nyo".data 5 (by decide)).2 (by decide)⟩

/-- C2 (counterexample): for the text `"ab\ncdefghi"` and maximum length 5 the
claim's per-piece bound fails: the returned pieces are `"ab\n"` and
`"cdefghi"`, and the second piece, a member of the result, has length 7 > 5
(the concatenation is still exact). -/
theorem split_long_text_length_counterexample :
    split_long_text "ab\ncdefghi".data 5 = ["ab\n".data, "cdefghi".data] ∧
    "cdefghi".data ∈ split_long_text "ab\ncdefghi".data 5 ∧
    ¬ ("cdefghi".data.length ≤ 5) := by
  refine ⟨rfl, ?_, by decide⟩
  decide

/-- The per-block validator always leaves a toggle block with at most 50
children. -/
theorem toggleChildrenCapped_step (cfg : Config) (b : NBlock) :
    toggleChildrenCapped (validateBlockStep cfg b) = true := by
  unfold validateBlockStep
  cases hb : validate_rich_text_length cfg b with
  | mk t p? =>
    cases p? with
    | none => simp [toggleChildrenCapped]
    | some p =>
      by_cases ht : t = "toggle".data
      · cases hc : p.children with
        | none => simp [toggleChildrenCapped, ht, hc]
        | some cs =>
          simp only [ht, if_pos rfl, hc, if_true]
          simp [toggleChildrenCapped, List.length_take, decide_eq_true_eq]
      · simp [toggleChildrenCapped, ht]

/-- The block-count loop maps the per-block validator over the first
`cap - count` blocks. -/
theorem validateBlocksLoop_eq (cfg : Config) (bs : List NBlock) (count : Nat) :
    validateBlocksLoop cfg bs count =
      (bs.take (cfg.max_blocks_per_page - count)).map (validateBlockStep cfg) := by
  induction bs generalizing count with
  | nil => simp [validateBlocksLoop]
  | cons b rest ih =>
    by_cases h : cfg.max_blocks_per_page ≤ count
    · have : cfg.max_blocks_per_page - count = 0 := by omega
      simp [validateBlocksLoop, h, this]
    · have hsub : cfg.max_blocks_per_page - count =
        (cfg.max_blocks_per_page - (count + 1)) + 1 := by omega
      simp only [validateBlocksLoop, if_neg h, ih, hsub, List.take_succ_cons,
        List.map_cons]

/-- C3 (amended): the final validation pass returns exactly the first
`max_blocks_per_page` blocks (default 100), each transformed by the
per-block validator, so its length never exceeds the cap; every returned
toggle block carries at most 50 children (each child rich-text-truncated);
and a block whose kind-specific payload is absent passes through unchanged —
it is not dropped.  Rich-text truncation applies only to the kinds listed in
`textBlockKinds`; code blocks in particular are left untouched. -/
theorem validate_blocks_amended (cfg : Config) (blocks : List NBlock) :
    validate_blocks cfg blocks =
      (blocks.take cfg.max_blocks_per_page).map (validateBlockStep cfg) ∧
    (validate_blocks cfg blocks).length ≤ cfg.max_blocks_per_page ∧
    (validate_blocks cfg blocks).all toggleChildrenCapped = true ∧
    ∀ t, validateBlockStep cfg (NBlock.mk t none) = NBlock.mk t none := by
  have heq : validate_blocks cfg blocks =
      (blocks.take cfg.max_blocks_per_page).map (validateBlockStep cfg) := by
    rw [validate_blocks, validateBlocksLoop_eq, Nat.sub_zero]
  refine ⟨heq, ?_, ?_, ?_⟩
  · rw [heq, List.length_map]
    have := List.length_take_le cfg.max_blocks_per_page blocks
    omega
  · rw [heq, List.all_eq_true]
    intro b hb
    rcases List.mem_map.mp hb with ⟨b0, _, rfl⟩
    exact toggleChildrenCapped_step cfg b0
  · intro t
    rfl

/-- C3 (counterexample): with the default configuration, a `paragraph` block
whose kind-specific payload is absent is returned unchanged (the claim says
it is dropped), and a `code` block whose single rich-text content string has
2005 characters is also returned unchanged, exceeding the 2000-character cap
the claim says is enforced on every emitted block. -/
theorem validate_blocks_counterexample :
    validate_blocks defaultConfig
      [NBlock.mk "paragraph".data none,
       NBlock.mk "code".data
         (some { language := some "python".data,
                 rich_text := some [RichText.textSpan (List.replicate 2005 'a')] })] =
      [NBlock.mk "paragraph".data none,
       NBlock.mk "code".data
         (some { language := some "python".data,
                 rich_text := some [RichText.textSpan (List.replicate 2005 'a')] })] ∧
    (NBlock.mk "paragraph".data none).payload = none ∧
    ¬ ((List.replicate 2005 'a').length ≤ 2000) := by
  refine ⟨rfl, rfl, ?_⟩
  rw [List.length_replicate]
  omega

/-- The continuation loop stops at an empty remainder, whatever the fuel. -/
theorem createSubPagesLoop_nil (oracle : PageReq α → Option (List Char))
    (cap : Nat) (title mid : List Char) (fuel n : Nat) :
    createSubPagesLoop oracle cap title mid fuel ([] : List α) n = [] := by
  cases fuel <;> simp [createSubPagesLoop]

/-- The main-page creation request of `_create_multiple_pages`: the given
title and abstract with the first `cap` blocks and no parent. -/
def mainPageReq (cap : Nat) (title abstract : List Char) (blocks : List α) :
    PageReq α :=
  { title := title, abstract := abstract, children := blocks.take cap,
    parent_id := none }

/-- The `n`-th continuation-page creation request: subtitle `(続き n)`, empty
abstract, the next `cap` of the remaining blocks, parented to the main
page. -/
def contPageReq (cap : Nat) (title mid : List Char) (rem : List α) (n : Nat) :
    PageReq α :=
  { title := subTitle title n, abstract := [], children := rem.take cap,
    parent_id := some mid }

/-- One successful step of the continuation loop. -/
theorem createSubPagesLoop_step (oracle : PageReq α → Option (List Char))
    (cap : Nat) (title mid : List Char) (fuel : Nat) (rem : List α) (n : Nat)
    (pid : List Char) (hne : ¬ rem.isEmpty = true)
    (hor : oracle (contPageReq cap title mid rem n) = some pid) :
    createSubPagesLoop oracle cap title mid (fuel + 1) rem n =
      (contPageReq cap title mid rem n, pid) ::
        createSubPagesLoop oracle cap title mid fuel (rem.drop cap) (n + 1) := by
  rw [contPageReq] at hor
  simp [createSubPagesLoop, contPageReq, hne, hor]

/-- C4 (amended): for a 250-block list and a page cap of 100, the assembler
attempts exactly three page creations, in order: the main page with the given
title and summary and the first 100 blocks; then two continuation pages of
100 and 50 blocks, titled `"{title} (続き 1)"` and `"{title} (続き 2)"`
(`続き` = "continued"; the claim's English rendering with the word
`continued` does not match the emitted string), each with empty summary and
the main page's identifier as parent; the three chunks concatenate back to
the original list in order.  When the main page's creation fails, the whole
operation fails and no continuation page is attempted. -/
theorem create_multiple_pages_250 (oracle : PageReq α → Option (List Char))
    (title abstract : List Char) (blocks : List α)
    (hlen : blocks.length = 250)
    (hok : ∀ r, (oracle r).isSome = true) :
    (∃ i0 i1 i2,
      oracle (mainPageReq 100 title abstract blocks) = some i0 ∧
      create_multiple_pages oracle 100 title abstract blocks = Except.ok
        [(mainPageReq 100 title abstract blocks, i0),
         (contPageReq 100 title i0 (blocks.drop 100) 1, i1),
         (contPageReq 100 title i0 ((blocks.drop 100).drop 100) 2, i2)]) ∧
    (blocks.take 100).length = 100 ∧
    ((blocks.drop 100).take 100).length = 100 ∧
    (((blocks.drop 100).drop 100).take 100).length = 50 ∧
    blocks.take 100 ++
      ((blocks.drop 100).take 100 ++ ((blocks.drop 100).drop 100).take 100) =
      blocks ∧
    (∀ oracle2 : PageReq α → Option (List Char),
      oracle2 (mainPageReq 100 title abstract blocks) = none →
      create_multiple_pages oracle2 100 title abstract blocks =
        Except.error "メインページの作成に失敗しました".data) := by
  have hd1 : (blocks.drop 100).length = 150 := by
    simp [List.length_drop, hlen]
  have hd2 : ((blocks.drop 100).drop 100).length = 50 := by
    simp [List.length_drop, hlen]
  have ht2 : ((blocks.drop 100).drop 100).take 100 =
      (blocks.drop 100).drop 100 := List.take_of_length_le (by omega)
  refine ⟨?_, ?_, ?_, ?_, ?_, ?_⟩
  · obtain ⟨i0, h0⟩ := Option.isSome_iff_exists.mp
      (hok (mainPageReq 100 title abstract blocks))
    obtain ⟨i1, h1⟩ := Option.isSome_iff_exists.mp
      (hok (contPageReq 100 title i0 (blocks.drop 100) 1))
    obtain ⟨i2, h2⟩ := Option.isSome_iff_exists.mp
      (hok (contPageReq 100 title i0 ((blocks.drop 100).drop 100) 2))
    refine ⟨i0, i1, i2, h0, ?_⟩
    have hne1 : ¬ (blocks.drop 100).isEmpty = true := by
      rw [List.isEmpty_iff, ← List.length_eq_zero]
      omega
    have hne2 : ¬ ((blocks.drop 100).drop 100).isEmpty = true := by
      rw [List.isEmpty_iff, ← List.length_eq_zero]
      omega
    have hnil3 : ((blocks.drop 100).drop 100).drop 100 = [] := by
      rw [← List.length_eq_zero]
      simp [List.length_drop, hlen]
    have h0' := h0
    rw [mainPageReq] at h0'
    simp only [create_multiple_pages, h0', hd1]
    rw [createSubPagesLoop_step _ _ _ _ _ _ _ i1 hne1 h1]
    rw [show (150 : Nat) = 149 + 1 from rfl]
    rw [createSubPagesLoop_step _ _ _ _ _ _ _ i2 hne2 h2]
    rw [hnil3, createSubPagesLoop_nil, mainPageReq]
  · simp [List.length_take, hlen]
  · simp [List.length_take, List.length_drop, hlen]
  · simp [List.length_take, List.length_drop, hlen]
  · rw [ht2, List.take_append_drop, List.take_append_drop]
  · intro oracle2 hnone
    rw [mainPageReq] at hnone
    rw [create_multiple_pages, hnone]

/-- C4 (witness): the amended theorem applied to a concrete 250-block list,
an always-succeeding page oracle, title `"T"` and summary `"S"`: the
operation succeeds and the first chunk has 100 blocks. -/
theorem create_multiple_pages_250_witness :
    (create_multiple_pages constPageOracle 100 "T".data "S".data
        (List.replicate 250 (0 : Nat))).toOption.isSome = true ∧
    ((List.replicate 250 (0 : Nat)).take 100).length = 100 := by
  have h := create_multiple_pages_250 constPageOracle "T".data "S".data
    (List.replicate 250 (0 : Nat)) (by rw [List.length_replicate]) (fun r => rfl)
  obtain ⟨⟨i0, i1, i2, h0, hEq⟩, hl, _⟩ := h
  constructor
  · rw [hEq]
    rfl
  · exact hl

set_option maxRecDepth 8000 in
/-- C4 (counterexample): running the assembler on a concrete 250-block list
with an always-succeeding oracle, the second page's title is
`"T (続き 1)"`, not the `"T (continued 1)"` the claim states. -/
theorem continuation_title_counterexample :
    (create_multiple_pages constPageOracle 100 "T".data "S".data
        (List.replicate 250 (0 : Nat))).toOption.map
        (fun ps => ps.map (fun pr => pr.1.title)) =
      some ["T".data, "T (続き 1)".data, "T (続き 2)".data] ∧
    "T (続き 1)".data ≠ "T (continued 1)".data := by
  refine ⟨rfl, ?_⟩
  decide

/-- C6 (amended): the active `_process_paragraph` resolves every local image
reference it meets by invoking the image uploader, unconditionally appending
one call to the call log — it consults no cache: the `processed_images` set
initialised in `__init__` is never read on this path, so the log's growth is
independent of the previous calls and a repeated reference resolves again. -/
theorem process_paragraph_always_resolves
    (uploader : List Char → List Char) (md_dir : List Char)
    (tokens : List Token) (i : Nat) (blocks : List NBlock)
    (calls : List (List Char)) (alt path : List Char)
    (hlen : i + 1 < tokens.length)
    (himg : imgSearch (pyStrip (tokens.getD (i + 1) defaultToken).content) =
      some (alt, path))
    (hloc : ("http://".data.isPrefixOf path ||
      "https://".data.isPrefixOf path) = false) :
    (process_paragraph uploader md_dir tokens i blocks calls).2.1 =
      calls ++ [md_dir ++ '/' :: path] ∧
    (process_paragraph uploader md_dir tokens i blocks calls).1 =
      blocks ++ [imageBlock (uploader (md_dir ++ '/' :: path))] := by
  have htxt : ¬ (pyStrip (tokens.getD (i + 1) defaultToken).content).isEmpty =
      true := by
    rw [List.isEmpty_iff]
    intro h0
    rw [h0] at himg
    simp [imgSearch] at himg
  unfold process_paragraph
  rw [if_pos hlen]
  simp only [htxt, Bool.false_eq_true, if_false, himg, hloc]
  simp

/-- C6 (witness): with the call log already holding the resolved path (the
"cache" from a first resolution), processing the same image paragraph again
still appends a second identical call. -/
theorem process_paragraph_always_resolves_witness :
    imgSearch (pyStrip (twoImageTokens.getD 1 defaultToken).content) =
      some ("a".data, "img.png".data) ∧
    (process_paragraph constUploader "/d".data twoImageTokens 0 []
        ["/d/img.png".data]).2.1 =
      ["/d/img.png".data, "/d/img.png".data] := by
  refine ⟨rfl, ?_⟩
  rw [(process_paragraph_always_resolves constUploader "/d".data twoImageTokens
    0 [] ["/d/img.png".data] "a".data "img.png".data (by decide) rfl
    (by decide)).1]
  rfl

/-- C6 (counterexample): a body with two identical local image references
invokes the resolver twice — the second occurrence does not reuse the first
resolution, contradicting the claimed at-most-once resolution. -/
theorem image_dedup_counterexample :
    (process_paragraph constUploader "/d".data twoImageTokens 3
        (process_paragraph constUploader "/d".data twoImageTokens 0 [] []).1
        (process_paragraph constUploader "/d".data twoImageTokens 0 [] []).2.1).2.1 =
      ["/d/img.png".data, "/d/img.png".data] ∧
    ¬ ((["/d/img.png".data, "/d/img.png".data] : List (List Char)).length ≤ 1) := by
  refine ⟨rfl, by decide⟩

/-- Lookup distributes over dict (association-list) concatenation. -/
theorem dictLookup_append (a b : List (List Char × α)) (k : List Char) :
    dictLookup (a ++ b) k =
      match dictLookup a k with
      | some v => some v
      | none => dictLookup b k := by
  induction a with
  | nil => simp [dictLookup]
  | cons p rest ih =>
    obtain ⟨k0, v0⟩ := p
    by_cases h : k0 = k <;> simp [dictLookup, h, ih]

/-- Lookup after a Python `update`: bindings of the update argument win
(its last binding for a key, which is the first in its reversal), and other
keys fall through to the original dict. -/
theorem dictLookup_pyUpdate (fm meta : List (List Char × α)) (k : List Char) :
    dictLookup (pyUpdate fm meta) k =
      match dictLookup meta.reverse k with
      | some v => some v
      | none => dictLookup fm k := by
  induction meta generalizing fm with
  | nil => simp [pyUpdate, dictLookup]
  | cons p rest ih =>
    obtain ⟨k1, v1⟩ := p
    have hstep : pyUpdate fm ((k1, v1) :: rest) =
        pyUpdate (dictInsert fm k1 v1) rest := by
      simp [pyUpdate]
    rw [hstep, ih, List.reverse_cons, dictLookup_append]
    cases dictLookup rest.reverse k with
    | some v => rfl
    | none =>
      simp only [dictLookup, dictLookup_dictInsert]
      by_cases h : k1 = k <;> simp [h]

/-- A key absent from a dict is also absent from its reversal. -/
theorem dictLookup_none_reverse (l : List (List Char × α)) (k : List Char)
    (h : dictLookup l k = none) : dictLookup l.reverse k = none := by
  induction l with
  | nil => simp [dictLookup]
  | cons p rest ih =>
    obtain ⟨k0, v0⟩ := p
    by_cases h0 : k0 = k
    · simp [dictLookup, h0] at h
    · simp only [dictLookup, if_neg h0] at h
      rw [List.reverse_cons, dictLookup_append, ih h]
      simp [dictLookup, h0]

/-- Looking up `execution_time` in the reversed extraction dict returns
exactly the execution-timestamp search result: the other two fixed keys
never shadow it. -/
theorem extract_lookup_exec (text : List Char) :
    dictLookup (extract_execution_metadata text).reverse
      "execution_time".data = searchExecTime text := by
  have hne1 : "connection_host".data ≠ "execution_time".data := by decide
  have hne2 : "prompt_file".data ≠ "execution_time".data := by decide
  unfold extract_execution_metadata
  cases searchExecTime text <;>
    cases searchLabelValue "**接続先:**".data text <;>
      cases searchLabelValue "**プロンプトファイル:**".data text <;>
        simp [dictInsert, dictLookup, dictLookup_append, hne1, hne2]

/-- Looking up `connection_host` in the reversed extraction dict returns
exactly the host-label search result. -/
theorem extract_lookup_host (text : List Char) :
    dictLookup (extract_execution_metadata text).reverse
      "connection_host".data = searchLabelValue "**接続先:**".data text := by
  have hne1 : "execution_time".data ≠ "connection_host".data := by decide
  have hne2 : "prompt_file".data ≠ "connection_host".data := by decide
  unfold extract_execution_metadata
  cases searchExecTime text <;>
    cases searchLabelValue "**接続先:**".data text <;>
      cases searchLabelValue "**プロンプトファイル:**".data text <;>
        simp [dictInsert, dictLookup, dictLookup_append, hne1, hne2]

/-- Looking up `prompt_file` in the reversed extraction dict returns exactly
the prompt-file-label search result. -/
theorem extract_lookup_prompt (text : List Char) :
    dictLookup (extract_execution_metadata text).reverse
      "prompt_file".data =
      searchLabelValue "**プロンプトファイル:**".data text := by
  have hne1 : "execution_time".data ≠ "prompt_file".data := by decide
  have hne2 : "connection_host".data ≠ "prompt_file".data := by decide
  unfold extract_execution_metadata
  cases searchExecTime text <;>
    cases searchLabelValue "**接続先:**".data text <;>
      cases searchLabelValue "**プロンプトファイル:**".data text <;>
        simp [dictInsert, dictLookup, dictLookup_append, hne1, hne2]

/-- C7 (amended): the backup_v3 transcript-metadata merge uses
`dict.update` semantics — a mined transcript key (execution timestamp,
connection host, prompt-file reference) OVERWRITES an already-present
front-matter value for that key, rather than being added only when absent;
keys the mining does not produce keep their front-matter values. -/
theorem parse_v3_update_overwrites (text : List Char) :
    (∀ v, searchExecTime (parse_frontmatter_and_body text).2 = some v →
      dictLookup (parse_frontmatter_and_body_v3 text).1
        "execution_time".data = some v) ∧
    (∀ v, searchLabelValue "**接続先:**".data
        (parse_frontmatter_and_body text).2 = some v →
      dictLookup (parse_frontmatter_and_body_v3 text).1
        "connection_host".data = some v) ∧
    (∀ v, searchLabelValue "**プロンプトファイル:**".data
        (parse_frontmatter_and_body text).2 = some v →
      dictLookup (parse_frontmatter_and_body_v3 text).1
        "prompt_file".data = some v) ∧
    (∀ k, dictLookup
        (extract_execution_metadata (parse_frontmatter_and_body text).2) k =
          none →
      dictLookup (parse_frontmatter_and_body_v3 text).1 k =
        dictLookup (parse_frontmatter_and_body text).1 k) := by
  have hv3 : (parse_frontmatter_and_body_v3 text).1 =
      pyUpdate (parse_frontmatter_and_body text).1
        (extract_execution_metadata (parse_frontmatter_and_body text).2) := rfl
  refine ⟨?_, ?_, ?_, ?_⟩
  · intro v hv
    rw [hv3, dictLookup_pyUpdate, extract_lookup_exec, hv]
  · intro v hv
    rw [hv3, dictLookup_pyUpdate, extract_lookup_host, hv]
  · intro v hv
    rw [hv3, dictLookup_pyUpdate, extract_lookup_prompt, hv]
  · intro k hk
    rw [hv3, dictLookup_pyUpdate, dictLookup_none_reverse _ _ hk]

/-- C7 (witness): on a concrete transcript-style document the mined
execution timestamp is looked up in the merged metadata via the amended
theorem. -/
theorem parse_v3_update_witness :
    searchExecTime (parse_frontmatter_and_body
      "---\nexecution_time: AAA\n---\n## 実行記録: 2025-01-01 00:00:00\n".data).2 =
      some "2025-01-01 00:00:00".data ∧
    dictLookup (parse_frontmatter_and_body_v3
        "---\nexecution_time: AAA\n---\n## 実行記録: 2025-01-01 00:00:00\n".data).1
        "execution_time".data =
      some "2025-01-01 00:00:00".data := by
  refine ⟨rfl, ?_⟩
  exact (parse_v3_update_overwrites
    "---\nexecution_time: AAA\n---\n## 実行記録: 2025-01-01 00:00:00\n".data).1
    "2025-01-01 00:00:00".data rfl

/-- C7 (counterexample): for a document whose front-matter header already
defines `execution_time: AAA` and whose body carries a mined execution
record, the backup_v3 parse returns the mined value, not the front-matter
value `AAA` the claim says is retained. -/
theorem frontmatter_overwrite_counterexample :
    dictLookup (parse_frontmatter_and_body
        "---\nexecution_time: AAA\n---\n## 実行記録: 2025-01-01 00:00:00\n".data).1
        "execution_time".data = some "AAA".data ∧
    dictLookup (parse_frontmatter_and_body_v3
        "---\nexecution_time: AAA\n---\n## 実行記録: 2025-01-01 00:00:00\n".data).1
        "execution_time".data = some "2025-01-01 00:00:00".data ∧
    some "2025-01-01 00:00:00".data ≠ some "AAA".data := by
  refine ⟨rfl, rfl, by decide⟩

end MdUp
